import Mathlib

/-!
# Verification of the clearskypy extractor core

A shallow embedding of `src/clearskypy/extractor/extract.py`.

Modelling conventions:
* timestamps are integers (minutes); numpy `NaT` is `Option.none`;
* matrix cells are `Option ℚ`; numpy `NaN` is `Option.none`;
* a dataset file is its native time axis together with named per-variable
  value functions; nearest-neighbour spatial selection is folded into the
  value function (the grid snap is a collaborator primitive, §6 of the spec);
* the sentinel-integer protocol of `extract_dataset` is an explicit result
  type: `.vars` for a normal per-variable matrix list, `.err` for the coded
  sentinel returns (`-1`, `-2`), and `.exn` for an uncaught Python exception
  (numpy broadcast or index errors escaping the function).
-/

/-- A timestamp or the `NaT` sentinel. -/
abbrev MaybeTime := Option Int

/-- A matrix cell; `none` is `NaN`. -/
abbrev Cell := Option ℚ

/-- One per-variable matrix: a list of time rows, each a list of station cells. -/
abbrev Mat := List (List Cell)

/-- `np.unique(l)`: the sorted list of distinct elements of `l`. -/
def npUnique {α : Type} [LinearOrder α] [DecidableEq α] (l : List α) : List α :=
  List.insertionSort (· ≤ ·) l.dedup

/-- The inverse index of `np.unique(l, return_inverse=True)` at position `i`:
the position of the `i`-th original element inside the sorted unique list. -/
def npUniqueInverse (l : List ℚ) (i : Nat) : Nat :=
  (npUnique l).indexOf (l.getD i 0)

/-- `date_check(date, date_start, date_end)` (extract.py lines 10-14): keep a
timestamp inside the inclusive window, map anything else (including `NaT`,
whose numpy comparisons are always false) to `NaT`. -/
def date_check (date : MaybeTime) (date_start date_end : Int) : MaybeTime :=
  match date with
  | some d => if date_start ≤ d ∧ d ≤ date_end then some d else none
  | none => none

/-- A named dataset variable: its value function over (lat, lon, native time).
Nearest-neighbour spatial selection is folded into the function. -/
structure DVar where
  name : String
  vals : ℚ → ℚ → Int → ℚ

/-- An opened gridded dataset file: native time axis plus named fields. -/
structure DatasetFile where
  times : List Int
  data : List DVar

/-- Variable lookup in an opened file (the variable-name indexing step). -/
def DatasetFile.find (f : DatasetFile) (v : String) : Option DVar :=
  f.data.find? (fun dv => dv.name == v)

/-- The result protocol of `extract_dataset`: a list of per-variable matrices,
a sentinel integer (`-1`, `-2`), or an uncaught low-level exception. -/
inductive ExtractResult where
  | vars (mats : List Mat)
  | err (code : Int)
  | exn
deriving DecidableEq

/-- `datetime[:, s]`: the time column of station `s` in the request matrix. -/
def column (dtm : List (List MaybeTime)) (s : Nat) : List MaybeTime :=
  dtm.map (fun row => row.getD s none)

/-- `col[~np.isnat(col)]`: drop the `NaT` sentinels (a filter, not a mask). -/
def validTimes (col : List MaybeTime) : List Int := col.filterMap id

/-- `datetime_for_interp = np.unique(datetime[~np.isnat(datetime)])`
(extract.py line 51): the sorted union of all stations' valid timestamps. -/
def datetime_for_interp (dtm : List (List MaybeTime)) : List Int :=
  npUnique (dtm.flatten.filterMap id)

/-- `datetime_for_station` (extract.py lines 53-58): per station, its column
with the `NaT` entries filtered out. -/
def datetime_for_station (lons : List ℚ) (dtm : List (List MaybeTime)) :
    List (List Int) :=
  (List.range lons.length).map (fun s => validTimes (column dtm s))

/-- Linear interpolation of `f` along the sorted native axis at time `t`
(`dataset.interp(time=...)`); `none` outside the native hull (xarray
extrapolates to `NaN`). -/
def interpTime : List Int → (Int → ℚ) → Int → Option ℚ
  | [], _, _ => none
  | [t0], f, t => if t = t0 then some (f t0) else none
  | t0 :: t1 :: rest, f, t =>
    if t < t0 then none
    else if t ≤ t1 then
      some (f t0 + (f t1 - f t0) * (((t : ℚ) - (t0 : ℚ)) / ((t1 : ℚ) - (t0 : ℚ))))
    else interpTime (t1 :: rest) f t

/-- The value `dataset_interpolation[v].sel(lat, lon, 'nearest').sel(time=t)`
delivered in interpolation-mode assembly (extract.py lines 82-84).  When the
native axis has more than one step the dataset was interpolated onto the union
axis, so the lookup succeeds with the interpolated value (`NaN` outside the
hull); with at most one step the dataset is untouched and the exact time
lookup raises unless `t` is on the native axis.  Outer `none` = raised
exception; inner `none` = `NaN` cell. -/
def interpSel (f : DatasetFile) (v : DVar) (lat lon : ℚ) (t : Int) :
    Option Cell :=
  if 1 < f.times.length then some (interpTime f.times (v.vals lat lon) t)
  else if t ∈ f.times then some (some (v.vals lat lon t)) else none

/-- Sequence a list of optional values, failing if any entry is `none`. -/
def seqOption {α : Type} : List (Option α) → Option (List α)
  | [] => some []
  | none :: _ => none
  | some a :: rest => (seqOption rest).map (fun l => a :: l)

/-- One station's output column in interpolation mode (extract.py lines 78-84):
an empty valid-time list fills the column with `NaN`; otherwise the station's
values at its own valid timestamps are assigned to the column
(`station_data[:, s] = ...`), which numpy accepts when the value count equals
the column height `m` (element-wise) or is exactly 1 (the single value is
broadcast into every row of the column); any other count raises a broadcast
`ValueError`. -/
def interpColumn (f : DatasetFile) (v : DVar) (lat lon : ℚ) (m : Nat)
    (valid : List Int) : Option (List Cell) :=
  if valid.length = 0 then some (List.replicate m none)
  else if valid.length = m then seqOption (valid.map (interpSel f v lat lon))
  else if valid.length = 1 then
    (seqOption (valid.map (interpSel f v lat lon))).map
      (fun vals => List.replicate m (vals.headD none))
  else none

/-- The `[len(datetime) × len(lats)]` matrix of one variable in interpolation
mode (extract.py lines 77-84), assembled column by column over
`range(len(lons))`.  `none` overall models an uncaught exception: an
`IndexError` when `lons` outnumber the `lats`-wide matrix, or a failing column
assignment.  Columns beyond `lons.length` (when `lats` is longer) keep the
unspecified `np.empty` contents, modelled as `NaN`. -/
def buildInterpMatrix (f : DatasetFile) (v : DVar) (lats lons : List ℚ)
    (m : Nat) (validPer : List (List Int)) : Option Mat :=
  if lats.length < lons.length then none
  else
    match seqOption ((List.range lons.length).map (fun s =>
        interpColumn f v (lats.getD s 0) (lons.getD s 0) m
          (validPer.getD s []))) with
    | none => none
    | some cols =>
      some ((List.range m).map (fun r =>
        (List.range lats.length).map (fun s =>
          (cols.getD s (List.replicate m none)).getD r none)))

/-- The time axis of `dataset_interpolation` reaching the static-mode assembly
(extract.py lines 60-72 with `interpolate=False`): the exact-selected union
axis when the native axis has more than one step, the native axis otherwise. -/
def staticAxis (f : DatasetFile) (union : List Int) : List Int :=
  if 1 < f.times.length then union else f.times

/-- The `[len(lons_unique) × 1]` matrix of one variable in static mode
(extract.py lines 86-90): one value per loop index `s < len(lons)`, written at
row `s` from the first time step of the selected axis.  `none` models the
uncaught exceptions: indexing an empty selected axis, a row write past
`len(lons_unique)` (duplicate longitudes), or a `lats` lookup past its end. -/
def staticMatrix (f : DatasetFile) (v : DVar) (lats lons : List ℚ)
    (union : List Int) : Option Mat :=
  if lons = [] then some []
  else if lats.length < lons.length then none
  else if (npUnique lons).length < lons.length then none
  else
    match (staticAxis f union).head? with
    | none => none
    | some t0 =>
      some ((List.range lons.length).map (fun s =>
        [some (v.vals (lats.getD s 0) (lons.getD s 0) t0)]))

/-- The per-variable matrix list built by the assembly loop of
`extract_dataset` (extract.py lines 74-92), `none` when an uncaught exception
escapes the loop. -/
def extract_mats (lats lons : List ℚ) (f : DatasetFile)
    (varNames : List String) (dtm : List (List MaybeTime))
    (interpolate : Bool) : Option (List Mat) :=
  seqOption (varNames.map (fun vn =>
    match f.find vn with
    | none => none
    | some v =>
      if interpolate then
        buildInterpMatrix f v lats lons dtm.length (datetime_for_station lons dtm)
      else staticMatrix f v lats lons (datetime_for_interp dtm)))

/-- `extract_dataset` (extract.py lines 17-93).  In order: the early return on
an empty request; the `try` around opening/selecting the file, whose failure
mode is a requested variable absent from the file (`return -1`); the exact
time selection of the union axis when `interpolate` is false on a multi-step
axis (`return -2` when some union timestamp has no exact native match); then
the per-variable assembly. -/
def extract_dataset (lats lons : List ℚ) (f : DatasetFile)
    (varNames : List String) (dtm : List (List MaybeTime))
    (interpolate : Bool) : ExtractResult :=
  if dtm = [] then .vars []
  else if varNames.any (fun vn => (f.find vn).isNone) then .err (-1)
  else if 1 < f.times.length ∧ interpolate = false ∧
      ∃ t ∈ datetime_for_interp dtm, t ∉ f.times then .err (-2)
  else
    match extract_mats lats lons f varNames dtm interpolate with
    | some mats => .vars mats
    | none => .exn

/-- Whether control in `extract_dataset` reaches `xr.open_dataset`: the only
guard placed before the open is the early return on an empty request — no
station-count validation happens first. -/
def extract_dataset_accesses_file (_lats _lons : List ℚ)
    (dtm : List (List MaybeTime)) : Bool :=
  !dtm.isEmpty

/-- `halfhour = datetime.timedelta(minutes=30)` (extract.py line 121). -/
def halfhour : Int := 30

/-- `date_check_vec(datearray, start, end)` (extract.py lines 130-132): the
window restriction applied cell-wise to the whole request matrix. -/
def restrictRequest (dtm : List (List MaybeTime)) (s e : Int) :
    List (List MaybeTime) :=
  dtm.map (fun row => row.map (fun d => date_check d s e))

/-- `dataset_starttime - halfhour` for one file (extract.py lines 125-132). -/
def fileWindowStart (f : DatasetFile) : Int := f.times.headD 0 - halfhour

/-- `dataset_endtime + halfhour` for one file (extract.py lines 125-132). -/
def fileWindowEnd (f : DatasetFile) : Int := f.times.getLastD 0 + halfhour

/-- The request matrix restricted to one file's tolerance-expanded window. -/
def fileRestricted (datearray : List (List MaybeTime)) (f : DatasetFile) :
    List (List MaybeTime) :=
  restrictRequest datearray (fileWindowStart f) (fileWindowEnd f)

/-- The accumulation loop of `extract_dataset_list` (extract.py lines
122-137), rendered as structural recursion over the file list: per file, open
it (crashing on an empty native axis, since `dataset_time[0]` is indexed),
restrict the request to its expanded window, run `extract_dataset`, and append
the result unless it equals the empty list.  `none` models an uncaught
exception aborting the loop. -/
def edlVarList (lats lons : List ℚ) (files : List DatasetFile)
    (varNames : List String) (datearray : List (List MaybeTime))
    (interpolate : Bool) : Option (List ExtractResult) :=
  match files with
  | [] => some []
  | f :: rest =>
    if f.times = [] then none
    else if extract_dataset lats lons f varNames (fileRestricted datearray f)
        interpolate = .exn then none
    else
      match edlVarList lats lons rest varNames datearray interpolate with
      | none => none
      | some tail =>
        some (if extract_dataset lats lons f varNames
            (fileRestricted datearray f) interpolate ≠ ExtractResult.vars []
          then extract_dataset lats lons f varNames
            (fileRestricted datearray f) interpolate :: tail
          else tail)

/-- `np.vstack` on row-major matrices: row concatenation. -/
def vstackRows (a b : List (List Cell)) : List (List Cell) := a ++ b

/-- One pass of the concatenation loop body (extract.py lines 144-145):
`var[i] = np.vstack((var[i], nxt[i]))` for `i < len(varNames)`, leaving any
entries of `var` beyond that range unchanged. -/
def combineVars (nv : Nat) (cur nxt : List Mat) : List Mat :=
  (List.range cur.length).map (fun i =>
    if i < nv then vstackRows (cur.getD i []) (nxt.getD i []) else cur.getD i [])

/-- The concatenation loop of `extract_dataset_list` (extract.py lines
140-145) over the remaining accumulated entries, starting from `var_list[0]`.
The only skip test compares an entry against the empty list; an integer
sentinel reaching the loop is subscripted and raises a `TypeError`, modelled
as `none`, as is an accumulated entry shorter than the variable list. -/
def edlConcatAux (nv : Nat) (var : ExtractResult) :
    List ExtractResult → Option ExtractResult
  | [] => some var
  | vl :: rest =>
    if vl = ExtractResult.vars [] then edlConcatAux nv var rest
    else
      match var, vl with
      | .vars cur, .vars nxt =>
        if nv ≤ cur.length ∧ nv ≤ nxt.length then
          edlConcatAux nv (.vars (combineVars nv cur nxt)) rest
        else none
      | _, _ => none

/-- `var = var_list[0]` followed by the concatenation loop (extract.py lines
138-147); indexing an empty accumulated list raises, modelled as `none`. -/
def edlConcat (nv : Nat) : List ExtractResult → Option ExtractResult
  | [] => none
  | v0 :: rest => edlConcatAux nv v0 rest

/-- `extract_dataset_list` (extract.py lines 96-147): accumulate the per-file
results, then concatenate them variable-wise in file order.  `none` models an
uncaught exception escaping the call. -/
def extract_dataset_list (lats lons : List ℚ) (files : List DatasetFile)
    (varNames : List String) (datearray : List (List MaybeTime))
    (interpolate : Bool) : Option ExtractResult :=
  match edlVarList lats lons files varNames datearray interpolate with
  | none => none
  | some vl => edlConcat varNames.length vl

/-- Stated from the wording of claim C1 (the refinement target): per variable,
the vertical concatenation, in file order, of the per-file matrices. -/
def specStitched (nv : Nat) (Ms : List (List Mat)) : List Mat :=
  (List.range nv).map (fun i => (Ms.map (fun mj => mj.getD i [])).flatten)

/-- `h = phis / 9.80665` (extract.py line 175): geopotential to geometric
height via standard gravity. -/
noncomputable def merra2_height (phis : ℝ) : ℝ := phis / 9.80665

/-- `scale_height = np.exp((h0 - h) / Ha)` with `Ha = 2100` (extract.py lines
176-179). -/
noncomputable def scale_height (h0 h : ℝ) : ℝ := Real.exp ((h0 - h) / 2100)

/-- The per-station correction broadcast across all time rows (extract.py
lines 180-181): each row of the matrix is multiplied cell-wise by the
station-indexed factor vector.  The elevation vector's per-station shape is
set by callers outside `src/` and is modelled from the spec (§4.5 step 6). -/
noncomputable def applyScaleHeight (mat : List (List ℝ)) (sh : List ℝ) :
    List (List ℝ) :=
  mat.map (fun row => List.zipWith (fun x c => x * c) row sh)

/-- Constant dataset variable used in concrete evaluations. -/
def constVar : DVar := ⟨"V", fun _ _ _ => 0⟩

/-- A concrete file covering native times 0 and 60 (window `[-30, 90]`). -/
def fileA : DatasetFile := ⟨[0, 60], [constVar]⟩

/-- A concrete file covering native times 120 and 180 (window `[90, 210]`);
its window is disjoint from `fileA`'s and bridged to it by the tolerance. -/
def fileB : DatasetFile := ⟨[120, 180], [constVar]⟩

/-- A concrete file carrying only a variable named `"W"`. -/
def fileW : DatasetFile := ⟨[0, 60], [⟨"W", fun _ _ _ => 0⟩]⟩

/-! ## Supporting lemmas -/

lemma getD_range_map {β : Type} (g : Nat → β) (n j : Nat) (d : β) (h : j < n) :
    ((List.range n).map g).getD j d = g j := by
  rw [List.getD_eq_getElem _ _ (by simpa using h), List.getElem_map,
    List.getElem_range]

lemma range_map_getD_self {β : Type} (l : List β) (d : β) :
    (List.range l.length).map (fun i => l.getD i d) = l := by
  apply List.ext_getElem
  · simp
  · intro i h1 h2
    simp only [List.getElem_map, List.getElem_range]
    exact List.getD_eq_getElem l d h2

lemma getD_map_sentinel (g : MaybeTime → MaybeTime) (hg : g none = none)
    (row : List MaybeTime) (j : Nat) :
    (row.map g).getD j none = g (row.getD j none) := by
  rcases lt_or_ge j row.length with h | h
  · rw [List.getD_eq_getElem _ _ (by simpa using h), List.getD_eq_getElem _ _ h,
      List.getElem_map]
  · rw [List.getD_eq_default _ _ (by simpa using h),
      List.getD_eq_default _ _ h, hg]

lemma column_restrict (dtm : List (List MaybeTime)) (s e : Int) (j : Nat) :
    column (restrictRequest dtm s e) j =
      (column dtm j).map (fun d => date_check d s e) := by
  unfold column restrictRequest
  rw [List.map_map, List.map_map]
  apply List.map_congr_left
  intro row _
  exact getD_map_sentinel _ rfl row j

lemma validTimes_map_date_check (col : List MaybeTime) (s e : Int) :
    validTimes (col.map (fun d => date_check d s e)) =
      (validTimes col).filter (fun x => decide (s ≤ x ∧ x ≤ e)) := by
  induction col with
  | nil => rfl
  | cons d rest ih =>
    cases d with
    | none =>
      show validTimes (rest.map (fun d => date_check d s e)) =
        (validTimes rest).filter (fun x => decide (s ≤ x ∧ x ≤ e))
      exact ih
    | some t =>
      by_cases h : s ≤ t ∧ t ≤ e
      · show validTimes (date_check (some t) s e ::
            rest.map (fun d => date_check d s e)) =
          (t :: validTimes rest).filter (fun x => decide (s ≤ x ∧ x ≤ e))
        rw [show date_check (some t) s e = some t by simp [date_check, h]]
        rw [List.filter_cons_of_pos (by simpa using h)]
        show t :: validTimes (rest.map (fun d => date_check d s e)) =
          t :: (validTimes rest).filter (fun x => decide (s ≤ x ∧ x ≤ e))
        exact congrArg _ ih
      · show validTimes (date_check (some t) s e ::
            rest.map (fun d => date_check d s e)) =
          (t :: validTimes rest).filter (fun x => decide (s ≤ x ∧ x ≤ e))
        rw [show date_check (some t) s e = none by simp [date_check, h]]
        rw [List.filter_cons_of_neg (by simpa using h)]
        exact ih

lemma npUnique_length_le {α : Type} [LinearOrder α] [DecidableEq α]
    (l : List α) : (npUnique l).length ≤ l.length := by
  unfold npUnique
  rw [List.length_insertionSort]
  exact (List.dedup_sublist l).length_le

lemma npUnique_length_of_nodup {α : Type} [LinearOrder α] [DecidableEq α]
    (l : List α) (h : l.Nodup) : (npUnique l).length = l.length := by
  unfold npUnique
  rw [List.length_insertionSort, List.Nodup.dedup h]

lemma mem_npUnique {α : Type} [LinearOrder α] [DecidableEq α]
    (l : List α) (x : α) : x ∈ npUnique l ↔ x ∈ l := by
  unfold npUnique
  rw [List.mem_insertionSort, List.mem_dedup]

lemma npUnique_round_trip (l : List ℚ) (i : Nat) (hi : i < l.length) :
    (npUnique l).getD (npUniqueInverse l i) 0 = l.getD i 0 := by
  have hmem : l.getD i 0 ∈ l := by
    rw [List.getD_eq_getElem l 0 hi]
    exact List.getElem_mem hi
  have hmem2 : l.getD i 0 ∈ npUnique l := (mem_npUnique l _).mpr hmem
  have hidx : (npUnique l).indexOf (l.getD i 0) < (npUnique l).length :=
    List.indexOf_lt_length.mpr hmem2
  unfold npUniqueInverse
  rw [List.getD_eq_getElem _ _ hidx]
  exact List.getElem_indexOf hidx

lemma seqOption_map_isSome {α β : Type} (g : α → Option β) :
    ∀ l : List α, (∀ a ∈ l, (g a).isSome) →
      ∃ bs, seqOption (l.map g) = some bs := by
  intro l
  induction l with
  | nil => exact fun _ => ⟨[], rfl⟩
  | cons a rest ih =>
    intro h
    obtain ⟨b, hb⟩ := Option.isSome_iff_exists.mp (h a (by simp))
    obtain ⟨bs, hbs⟩ := ih (fun x hx => h x (by simp [hx]))
    exact ⟨b :: bs, by simp [seqOption, List.map_cons, hb, hbs]⟩

lemma seqOption_map_mem {α β : Type} (g : α → Option β) :
    ∀ (l : List α) (bs : List β), seqOption (l.map g) = some bs →
      ∀ b ∈ bs, ∃ a ∈ l, g a = some b := by
  intro l
  induction l with
  | nil =>
    intro bs h b hb
    have h2 : some ([] : List β) = some bs := h
    cases h2
    simp at hb
  | cons a rest ih =>
    intro bs h b hb
    rw [List.map_cons] at h
    cases hga : g a with
    | none =>
      rw [hga] at h
      exact Option.noConfusion h
    | some b0 =>
      rw [hga] at h
      have h2 : (seqOption (rest.map g)).map (fun l => b0 :: l) = some bs := h
      cases hrest : seqOption (rest.map g) with
      | none => rw [hrest] at h2; exact Option.noConfusion h2
      | some bs0 =>
        rw [hrest] at h2
        have h3 : some (b0 :: bs0) = some bs := h2
        cases h3
        rcases List.mem_cons.mp hb with hb0 | hbs0
        · exact ⟨a, by simp, by rw [hga, hb0]⟩
        · obtain ⟨a2, ha2, hga2⟩ := ih bs0 hrest b hbs0
          exact ⟨a2, by simp [ha2], hga2⟩

lemma staticMatrix_shape (f : DatasetFile) (v : DVar) (lats lons : List ℚ)
    (union : List Int) (mat : Mat)
    (h : staticMatrix f v lats lons union = some mat) :
    mat.length = (npUnique lons).length ∧
      (npUnique lons).length = lons.length ∧ ∀ row ∈ mat, row.length = 1 := by
  unfold staticMatrix at h
  split at h
  · rename_i h0
    cases h
    subst h0
    simp [npUnique]
  · split at h
    · exact Option.noConfusion h
    · split at h
      · exact Option.noConfusion h
      · rename_i hnlt
        split at h
        · exact Option.noConfusion h
        · cases h
          have hle : (npUnique lons).length ≤ lons.length := npUnique_length_le lons
          refine ⟨by simp ; omega, by omega, ?_⟩
          intro row hrow
          obtain ⟨s, hs, hrow2⟩ := List.mem_map.mp hrow
          rw [← hrow2]
          rfl

lemma extract_dataset_vars_inv (lats lons : List ℚ) (f : DatasetFile)
    (varNames : List String) (dtm : List (List MaybeTime)) (interpolate : Bool)
    (mats : List Mat)
    (h : extract_dataset lats lons f varNames dtm interpolate = .vars mats) :
    mats = [] ∨ extract_mats lats lons f varNames dtm interpolate = some mats := by
  unfold extract_dataset at h
  split at h
  · cases h; exact Or.inl rfl
  · split at h
    · exact ExtractResult.noConfusion h
    · split at h
      · exact ExtractResult.noConfusion h
      · split at h
        · rename_i ms hms
          cases h
          exact Or.inr hms
        · exact ExtractResult.noConfusion h

/-! ## Claim theorems -/

/-- Claim C2: `date_check` keeps a timestamp exactly when it lies inside the
inclusive window `[start, end]` (the window having been expanded by the
30-minute tolerance in the stitcher) and maps everything else, including the
sentinel itself, to the missing sentinel; and the per-station valid-time
subsequence of a window-restricted request is literally the filter of the
original valid times to the window — sentinels are dropped, not masked. -/
theorem date_check_window_filter (fl : DatasetFile) (t s e : Int)
    (lons : List ℚ) (dtm : List (List MaybeTime)) (j : Nat) :
    (s ≤ t ∧ t ≤ e → date_check (some t) s e = some t) ∧
    (¬(s ≤ t ∧ t ≤ e) → date_check (some t) s e = none) ∧
    date_check none s e = none ∧
    validTimes (column (restrictRequest dtm s e) j) =
      (validTimes (column dtm j)).filter (fun x => decide (s ≤ x ∧ x ≤ e)) ∧
    (j < lons.length →
      (datetime_for_station lons dtm).getD j [] = validTimes (column dtm j)) ∧
    fileWindowStart fl = fl.times.headD 0 - 30 ∧
    fileWindowEnd fl = fl.times.getLastD 0 + 30 := by
  refine ⟨fun h => by simp [date_check, h], fun h => by simp [date_check, h],
    rfl, ?_, fun hj => ?_, rfl, rfl⟩
  · rw [column_restrict]
    exact validTimes_map_date_check _ s e
  · unfold datetime_for_station
    exact getD_range_map _ _ _ _ hj

/-- Witness for C2 at a concrete window, timestamp and request. -/
theorem date_check_window_filter_witness :
    ((0 : Int) ≤ 10 ∧ (10 : Int) ≤ 60) ∧ (0 < [(0 : ℚ)].length) ∧
    (((0 : Int) ≤ 10 ∧ (10 : Int) ≤ 60 →
        date_check (some 10) 0 60 = some 10) ∧
      (¬((0 : Int) ≤ 10 ∧ (10 : Int) ≤ 60) →
        date_check (some 10) 0 60 = none) ∧
      date_check none 0 60 = none ∧
      validTimes (column (restrictRequest [[some 10, some 100]] 0 60) 0) =
        (validTimes (column [[some 10, some 100]] 0)).filter
          (fun x => decide ((0 : Int) ≤ x ∧ x ≤ 60)) ∧
      (0 < [(0 : ℚ)].length →
        (datetime_for_station [(0 : ℚ)] [[some 10, some 100]]).getD 0 [] =
          validTimes (column [[some 10, some 100]] 0)) ∧
      fileWindowStart fileA = fileA.times.headD 0 - 30 ∧
      fileWindowEnd fileA = fileA.times.getLastD 0 + 30) :=
  ⟨by decide, by decide,
    date_check_window_filter fileA 10 0 60 [(0 : ℚ)] [[some 10, some 100]] 0⟩

/-- Claim C3: a requested variable name absent from the opened file makes
`extract_dataset` return the `-1` sentinel — not a matrix list (no partial
per-variable results) and not a raised low-level error. -/
theorem extract_dataset_missing_variable (lats lons : List ℚ)
    (f : DatasetFile) (varNames : List String) (dtm : List (List MaybeTime))
    (interpolate : Bool) (vn : String) (hne : dtm ≠ []) (hv : vn ∈ varNames)
    (hmiss : f.find vn = none) :
    extract_dataset lats lons f varNames dtm interpolate = .err (-1) ∧
    (∀ ms : List Mat, ExtractResult.err (-1) ≠ .vars ms) ∧
    ExtractResult.err (-1) ≠ .exn := by
  refine ⟨?_, fun ms => by simp, by simp⟩
  unfold extract_dataset
  rw [if_neg hne, if_pos]
  exact List.any_eq_true.mpr ⟨vn, hv, by simp [hmiss]⟩

/-- Witness for C3: requesting `"V"` from a file carrying only `"W"`. -/
theorem extract_dataset_missing_variable_witness :
    ([[some (0 : Int)]] ≠ ([] : List (List MaybeTime))) ∧
    ("V" ∈ ["V"]) ∧ (fileW.find "V" = none) ∧
    (extract_dataset [(0 : ℚ)] [(0 : ℚ)] fileW ["V"] [[some 0]] true =
        .err (-1) ∧
      (∀ ms : List Mat, ExtractResult.err (-1) ≠ .vars ms) ∧
      ExtractResult.err (-1) ≠ .exn) :=
  ⟨by decide, by decide, rfl,
    extract_dataset_missing_variable [(0 : ℚ)] [(0 : ℚ)] fileW ["V"]
      [[some 0]] true "V" (by decide) (by decide) rfl⟩

/-- Claim C5 counterexample: with one latitude and two longitudes (mismatched
lengths) and a nonempty request, `extract_dataset` still reaches
`xr.open_dataset` — there is no fail-fast length validation before dataset
access, and no sentinel failure is produced either (the call later dies in
assembly, modelled `.exn`). -/
theorem length_mismatch_no_fail_fast_counterexample :
    List.length [(0 : ℚ)] ≠ List.length [(0 : ℚ), 1] ∧
    extract_dataset_accesses_file [(0 : ℚ)] [(0 : ℚ), 1] [[some 0, some 1]] =
      true ∧
    extract_dataset [(0 : ℚ)] [(0 : ℚ), 1] fileA ["V"] [[some 0, some 1]] true =
      .exn := by
  refine ⟨by decide, by decide, ?_⟩
  rfl

/-- Claim C5 amended: the extraction entry point performs no latitude/longitude
length validation at all — whenever the requested time matrix is nonempty it
proceeds to open the dataset file, even when the two coordinate sequences have
different lengths. -/
theorem accesses_file_despite_length_mismatch (lats lons : List ℚ)
    (dtm : List (List MaybeTime)) (hne : dtm ≠ [])
    (hlen : lats.length ≠ lons.length) :
    extract_dataset_accesses_file lats lons dtm = true := by
  have := hlen
  simp [extract_dataset_accesses_file, hne]

/-- Witness for the amended C5 at a concrete mismatched station set. -/
theorem accesses_file_despite_length_mismatch_witness :
    ([[some (0 : Int)]] ≠ ([] : List (List MaybeTime))) ∧
    (List.length [(0 : ℚ)] ≠ List.length [(0 : ℚ), 1]) ∧
    extract_dataset_accesses_file [(0 : ℚ)] [(0 : ℚ), 1] [[some 0]] = true :=
  ⟨by decide, by decide,
    accesses_file_despite_length_mismatch [(0 : ℚ)] [(0 : ℚ), 1] [[some 0]]
      (by decide) (by decide)⟩

/-- Claim C6: an empty requested time set makes `extract_dataset` return the
empty list immediately — a normal outcome distinct from the `-1`/`-2`
sentinels — and control never reaches `xr.open_dataset`. -/
theorem extract_dataset_empty_request (lats lons : List ℚ) (f : DatasetFile)
    (varNames : List String) (interpolate : Bool) :
    extract_dataset lats lons f varNames [] interpolate = .vars [] ∧
    extract_dataset_accesses_file lats lons [] = false ∧
    ExtractResult.vars [] ≠ .err (-1) ∧ ExtractResult.vars [] ≠ .err (-2) := by
  exact ⟨by simp [extract_dataset], rfl, by simp, by simp⟩

/-- Witness for C6 at a concrete station set and file. -/
theorem extract_dataset_empty_request_witness :
    extract_dataset [(0 : ℚ)] [(0 : ℚ)] fileA ["V"] [] true = .vars [] ∧
    extract_dataset_accesses_file [(0 : ℚ)] [(0 : ℚ)] [] = false ∧
    ExtractResult.vars [] ≠ .err (-1) ∧ ExtractResult.vars [] ≠ .err (-2) :=
  extract_dataset_empty_request [(0 : ℚ)] [(0 : ℚ)] fileA ["V"] true

/-- Claim C7: the `np.unique` deduplication round-trips — indexing the sorted
unique set by the inverse index recovers each station's original latitude and
longitude exactly. -/
theorem coordinate_dedup_round_trip (lats lons : List ℚ) (i : Nat)
    (hlen : lats.length = lons.length) (hi : i < lats.length) :
    (npUnique lats).getD (npUniqueInverse lats i) 0 = lats.getD i 0 ∧
    (npUnique lons).getD (npUniqueInverse lons i) 0 = lons.getD i 0 := by
  exact ⟨npUnique_round_trip lats i hi,
    npUnique_round_trip lons i (hlen ▸ hi)⟩

/-- Witness for C7 with a duplicated longitude, so the unique set is a strict
subset and the inverse index does real work. -/
theorem coordinate_dedup_round_trip_witness :
    (List.length [(1 : ℚ), 2] = List.length [(3 : ℚ), 3]) ∧
    (1 < List.length [(1 : ℚ), 2]) ∧
    ((npUnique [(1 : ℚ), 2]).getD (npUniqueInverse [(1 : ℚ), 2] 1) 0 =
        ([(1 : ℚ), 2]).getD 1 0 ∧
      (npUnique [(3 : ℚ), 3]).getD (npUniqueInverse [(3 : ℚ), 3] 1) 0 =
        ([(3 : ℚ), 3]).getD 1 0) :=
  ⟨by decide, by decide,
    coordinate_dedup_round_trip [(1 : ℚ), 2] [(3 : ℚ), 3] 1 (by decide)
      (by decide)⟩

lemma applyScaleHeight_cell (A : List (List ℝ)) (sh : List ℝ) (r s : Nat)
    (hr : r < A.length) (hs : s < (A.getD r []).length) (hssh : s < sh.length) :
    ((applyScaleHeight A sh).getD r []).getD s 0 =
      (A.getD r []).getD s 0 * sh.getD s 0 := by
  have h1 : (applyScaleHeight A sh).getD r [] =
      List.zipWith (fun x c => x * c) (A.getD r []) sh := by
    unfold applyScaleHeight
    rw [List.getD_eq_getElem _ _
        (show r < (A.map (fun row => List.zipWith (fun x c => x * c) row sh)).length
          by simpa using hr),
      List.getElem_map, List.getD_eq_getElem A _ hr]
  rw [h1]
  have hz : s < (List.zipWith (fun x c => x * c) (A.getD r []) sh).length := by
    rw [List.length_zipWith]
    exact lt_min hs hssh
  rw [List.getD_eq_getElem _ _ hz, List.getD_eq_getElem _ _ hs,
    List.getD_eq_getElem _ _ hssh, List.getElem_zipWith]

/-- Claim C9: the scale-height factor `exp((h0 − h)/2100)` with
`h = phis / 9.80665` is exactly 1 when the station elevation equals the
dataset height, above 1 when the station sits higher, below 1 when lower; and
applying the correction multiplies each cell of the aerosol optical depth and
water-vapour matrices by its station's factor, across all time rows. -/
theorem merra2_scale_height_correction (h0 phis : ℝ) (A W : List (List ℝ))
    (sh : List ℝ) (r s : Nat) (hrA : r < A.length)
    (hsA : s < (A.getD r []).length) (hrW : r < W.length)
    (hsW : s < (W.getD r []).length) (hssh : s < sh.length) :
    (h0 = merra2_height phis → scale_height h0 (merra2_height phis) = 1) ∧
    (merra2_height phis < h0 → 1 < scale_height h0 (merra2_height phis)) ∧
    (h0 < merra2_height phis → scale_height h0 (merra2_height phis) < 1) ∧
    ((applyScaleHeight A sh).getD r []).getD s 0 =
      (A.getD r []).getD s 0 * sh.getD s 0 ∧
    ((applyScaleHeight W sh).getD r []).getD s 0 =
      (W.getD r []).getD s 0 * sh.getD s 0 := by
  refine ⟨fun h => ?_, fun h => ?_, fun h => ?_,
    applyScaleHeight_cell A sh r s hrA hsA hssh,
    applyScaleHeight_cell W sh r s hrW hsW hssh⟩
  · rw [scale_height, h, sub_self, zero_div, Real.exp_zero]
  · exact Real.one_lt_exp_iff.mpr (div_pos (sub_pos.mpr h) (by norm_num))
  · exact Real.exp_lt_one_iff.mpr
      (div_neg_of_neg_of_pos (sub_neg.mpr h) (by norm_num))

/-- Witness for C9 at station elevation 1, `phis = 0`, concrete 1×1 matrices. -/
theorem merra2_scale_height_correction_witness :
    (0 < List.length [[(2 : ℝ)]]) ∧ (0 < List.length [[(3 : ℝ)]]) ∧
    (0 < List.length [(4 : ℝ)]) ∧
    (((1 : ℝ) = merra2_height 0 →
        scale_height 1 (merra2_height 0) = 1) ∧
      (merra2_height 0 < 1 → 1 < scale_height 1 (merra2_height 0)) ∧
      ((1 : ℝ) < merra2_height 0 → scale_height 1 (merra2_height 0) < 1) ∧
      ((applyScaleHeight [[(2 : ℝ)]] [(4 : ℝ)]).getD 0 []).getD 0 0 =
        (([[(2 : ℝ)]]).getD 0 []).getD 0 0 * ([(4 : ℝ)]).getD 0 0 ∧
      ((applyScaleHeight [[(3 : ℝ)]] [(4 : ℝ)]).getD 0 []).getD 0 0 =
        (([[(3 : ℝ)]]).getD 0 []).getD 0 0 * ([(4 : ℝ)]).getD 0 0) :=
  ⟨by simp, by simp, by simp,
    merra2_scale_height_correction 1 0 [[(2 : ℝ)]] [[(3 : ℝ)]] [(4 : ℝ)] 0 0
      (by simp) (by simp) (by simp) (by simp) (by simp)⟩

lemma staticMatrix_isSome (f : DatasetFile) (v : DVar) (lats lons : List ℚ)
    (union : List Int) (hl : lons.length ≤ lats.length) (hnd : lons.Nodup)
    (hax : staticAxis f union ≠ []) :
    ∃ mat, staticMatrix f v lats lons union = some mat := by
  unfold staticMatrix
  by_cases h0 : lons = []
  · exact ⟨[], by rw [if_pos h0]⟩
  · rw [if_neg h0, if_neg (by omega),
      if_neg (by rw [npUnique_length_of_nodup lons hnd]; omega)]
    obtain ⟨a, tl, hcons⟩ := List.exists_cons_of_ne_nil hax
    rw [hcons]
    exact ⟨_, rfl⟩

/-- Claim C4: with `interpolate=False` on a file whose native axis has more
than one step, a union timestamp missing from the native axis makes
`extract_dataset` return the `-2` sentinel (no per-variable results); when
every union timestamp matches exactly, the selection succeeds and a matrix
list is returned. -/
theorem extract_dataset_exact_mode (lats lons : List ℚ) (f : DatasetFile)
    (varNames : List String) (dtm dtm2 : List (List MaybeTime))
    (hvars : ∀ vn ∈ varNames, (f.find vn).isSome)
    (hsize : 1 < f.times.length) :
    ((dtm ≠ [] ∧ ∃ t ∈ datetime_for_interp dtm, t ∉ f.times) →
      extract_dataset lats lons f varNames dtm false = .err (-2)) ∧
    ((dtm2 ≠ [] ∧ (∀ t ∈ datetime_for_interp dtm2, t ∈ f.times) ∧
        datetime_for_interp dtm2 ≠ [] ∧ lons.Nodup ∧
        lons.length ≤ lats.length) →
      ∃ mats, extract_dataset lats lons f varNames dtm2 false = .vars mats) := by
  have hany : ¬((varNames.any fun vn => (f.find vn).isNone) = true) := by
    rw [List.any_eq_true]
    rintro ⟨vn, hvn, hnone⟩
    have h2 := hvars vn hvn
    rw [Option.isNone_iff_eq_none] at hnone
    rw [hnone] at h2
    simp at h2
  constructor
  · rintro ⟨hne, hex⟩
    unfold extract_dataset
    rw [if_neg hne, if_neg hany, if_pos ⟨hsize, rfl, hex⟩]
  · rintro ⟨hne, hall, hu, hnd, hl⟩
    unfold extract_dataset
    rw [if_neg hne, if_neg hany,
      if_neg (by rintro ⟨-, -, t, ht, hnt⟩; exact hnt (hall t ht))]
    have hmats : ∃ ms, extract_mats lats lons f varNames dtm2 false = some ms := by
      unfold extract_mats
      apply seqOption_map_isSome
      intro vn hvn
      obtain ⟨v, hv⟩ := Option.isSome_iff_exists.mp (hvars vn hvn)
      rw [hv]
      show (if false = true then
          buildInterpMatrix f v lats lons dtm2.length
            (datetime_for_station lons dtm2)
        else staticMatrix f v lats lons (datetime_for_interp dtm2)).isSome
      rw [if_neg (by simp)]
      obtain ⟨mat, hmat⟩ := staticMatrix_isSome f v lats lons
        (datetime_for_interp dtm2) hl hnd
        (by rw [staticAxis, if_pos hsize]; exact hu)
      rw [hmat]
      rfl
    obtain ⟨ms, hms⟩ := hmats
    rw [hms]
    exact ⟨ms, rfl⟩

/-- Witness for C4: time 30 is absent from `fileA`'s axis (`-2`); time 0 is an
exact native match (success). -/
theorem extract_dataset_exact_mode_witness :
    extract_dataset [(0 : ℚ)] [(0 : ℚ)] fileA ["V"] [[some 30]] false =
      .err (-2) ∧
    ∃ mats, extract_dataset [(0 : ℚ)] [(0 : ℚ)] fileA ["V"] [[some 0]] false =
      .vars mats :=
  ⟨(extract_dataset_exact_mode [(0 : ℚ)] [(0 : ℚ)] fileA ["V"] [[some 30]]
      [[some 0]] (by decide) (by decide)).1 ⟨by decide, by decide⟩,
    (extract_dataset_exact_mode [(0 : ℚ)] [(0 : ℚ)] fileA ["V"] [[some 30]]
      [[some 0]] (by decide) (by decide)).2
      ⟨by decide, by decide, by decide, by decide, by decide⟩⟩

/-- Claim C8: whenever a static-mode (`interpolate=False`) extraction returns
a matrix list, every returned matrix has exactly one column and
unique-coordinate-count rows — and success forces the unique-longitude count
to equal the station count, so there is one static value per station. -/
theorem extract_dataset_static_shape (lats lons : List ℚ) (f : DatasetFile)
    (varNames : List String) (dtm : List (List MaybeTime)) (mats : List Mat)
    (hres : extract_dataset lats lons f varNames dtm false = .vars mats) :
    ∀ mat ∈ mats, mat.length = (npUnique lons).length ∧
      (npUnique lons).length = lons.length ∧ ∀ row ∈ mat, row.length = 1 := by
  intro mat hmat
  rcases extract_dataset_vars_inv lats lons f varNames dtm false mats hres with
    hnil | hsome
  · subst hnil
    simp at hmat
  · unfold extract_mats at hsome
    obtain ⟨vn, hvn, hg⟩ := seqOption_map_mem _ _ _ hsome mat hmat
    cases hfind : f.find vn with
    | none => rw [hfind] at hg; exact Option.noConfusion hg
    | some v =>
      rw [hfind] at hg
      have hg2 : (if false = true then
          buildInterpMatrix f v lats lons dtm.length
            (datetime_for_station lons dtm)
        else staticMatrix f v lats lons (datetime_for_interp dtm)) =
          some mat := hg
      rw [if_neg (by simp)] at hg2
      exact staticMatrix_shape f v lats lons _ mat hg2

/-- Witness for C8: two distinct stations, static extraction from `fileA`. -/
theorem extract_dataset_static_shape_witness :
    (extract_dataset [(0 : ℚ), 1] [(0 : ℚ), 1] fileA ["V"]
        [[some 0, some 0]] false = .vars [[[some 0], [some 0]]]) ∧
    ∀ mat ∈ [[[some (0 : ℚ)], [some (0 : ℚ)]]],
      mat.length = (npUnique [(0 : ℚ), 1]).length ∧
      (npUnique [(0 : ℚ), 1]).length = List.length [(0 : ℚ), 1] ∧
      ∀ row ∈ mat, row.length = 1 :=
  ⟨by decide,
    extract_dataset_static_shape [(0 : ℚ), 1] [(0 : ℚ), 1] fileA ["V"]
      [[some 0, some 0]] [[[some 0], [some 0]]] (by decide)⟩

lemma edlVarList_total (lats lons : List ℚ) (varNames : List String)
    (datearray : List (List MaybeTime)) (interpolate : Bool) :
    ∀ files : List DatasetFile,
      (∀ g ∈ files, g.times ≠ []) →
      (∀ g ∈ files, extract_dataset lats lons g varNames
        (fileRestricted datearray g) interpolate ≠ .exn) →
      ∃ l, edlVarList lats lons files varNames datearray interpolate = some l ∧
        ∀ g ∈ files,
          extract_dataset lats lons g varNames (fileRestricted datearray g)
              interpolate ≠ .vars [] →
          extract_dataset lats lons g varNames (fileRestricted datearray g)
              interpolate ∈ l := by
  intro files
  induction files with
  | nil => exact fun _ _ => ⟨[], rfl, by simp⟩
  | cons f rest ih =>
    intro ht hx
    obtain ⟨tl, htl, hmem⟩ := ih (fun g hg => ht g (List.mem_cons_of_mem f hg))
      (fun g hg => hx g (List.mem_cons_of_mem f hg))
    refine ⟨if extract_dataset lats lons f varNames (fileRestricted datearray f)
          interpolate ≠ .vars []
        then extract_dataset lats lons f varNames (fileRestricted datearray f)
          interpolate :: tl
        else tl, ?_, ?_⟩
    · unfold edlVarList
      rw [if_neg (ht f (List.mem_cons_self f rest)),
        if_neg (hx f (List.mem_cons_self f rest)), htl]
    · intro g hg hgne
      rcases List.mem_cons.mp hg with rfl | hgrest
      · rw [if_pos hgne]
        exact List.mem_cons_self _ _
      · by_cases hf2 : extract_dataset lats lons f varNames
            (fileRestricted datearray f) interpolate ≠ .vars []
        · rw [if_pos hf2]
          exact List.mem_cons_of_mem _ (hmem g hgrest hgne)
        · rw [if_neg hf2]
          exact hmem g hgrest hgne

/-- Claim C10: a per-file failure sentinel (`-1` or `-2`) is not filtered by
the stitcher's skip test, which only compares the result against the empty
list; the sentinel is appended to the accumulated per-file results and flows
into the concatenation step — in the single-file case `extract_dataset_list`
even returns the raw sentinel to its caller, never detecting it. -/
theorem skip_test_misses_failure_sentinels (lats lons : List ℚ)
    (varNames : List String) (datearray : List (List MaybeTime))
    (interpolate : Bool) (files : List DatasetFile) (f : DatasetFile) (c : Int)
    (ht : ∀ g ∈ files, g.times ≠ [])
    (hx : ∀ g ∈ files, extract_dataset lats lons g varNames
      (fileRestricted datearray g) interpolate ≠ .exn)
    (hf : f ∈ files)
    (herr : extract_dataset lats lons f varNames (fileRestricted datearray f)
      interpolate = .err c) :
    ExtractResult.err c ≠ .vars [] ∧
    (∃ l, edlVarList lats lons files varNames datearray interpolate = some l ∧
      ExtractResult.err c ∈ l) ∧
    (files = [f] →
      extract_dataset_list lats lons files varNames datearray interpolate =
        some (.err c)) := by
  refine ⟨by simp, ?_, ?_⟩
  · obtain ⟨l, hl, hmem⟩ :=
      edlVarList_total lats lons varNames datearray interpolate files ht hx
    refine ⟨l, hl, ?_⟩
    have h2 := hmem f hf (by rw [herr]; simp)
    rwa [herr] at h2
  · rintro rfl
    unfold extract_dataset_list
    have h1 : edlVarList lats lons [f] varNames datearray interpolate =
        some [ExtractResult.err c] := by
      unfold edlVarList
      rw [if_neg (ht f (List.mem_cons_self f [])),
        if_neg (hx f (List.mem_cons_self f [])), herr]
      show some (if ExtractResult.err c ≠ ExtractResult.vars []
          then [ExtractResult.err c] else []) = some [ExtractResult.err c]
      rw [if_pos (by simp)]
    rw [h1]
    rfl

/-- Witness for C10: a single file lacking the requested variable; the `-1`
sentinel survives accumulation and is returned by `extract_dataset_list`. -/
theorem skip_test_misses_failure_sentinels_witness :
    (extract_dataset [(0 : ℚ)] [(0 : ℚ)] fileW ["V"]
        (fileRestricted [[some 0]] fileW) true = .err (-1)) ∧
    (ExtractResult.err (-1) ≠ .vars [] ∧
      (∃ l, edlVarList [(0 : ℚ)] [(0 : ℚ)] [fileW] ["V"] [[some 0]] true =
          some l ∧ ExtractResult.err (-1) ∈ l) ∧
      ([fileW] = [fileW] →
        extract_dataset_list [(0 : ℚ)] [(0 : ℚ)] [fileW] ["V"] [[some 0]]
          true = some (.err (-1)))) :=
  ⟨by decide,
    skip_test_misses_failure_sentinels [(0 : ℚ)] [(0 : ℚ)] ["V"] [[some 0]]
      true [fileW] fileW (-1) (by decide) (by decide)
      (List.mem_cons_self fileW []) (by decide)⟩

lemma combineVars_full (nv : Nat) (cur nxt : List Mat) (hc : cur.length = nv) :
    combineVars nv cur nxt =
      (List.range nv).map (fun i => cur.getD i [] ++ nxt.getD i []) := by
  unfold combineVars vstackRows
  rw [hc]
  apply List.map_congr_left
  intro i hi
  rw [if_pos (List.mem_range.mp hi)]

lemma combineVars_length (nv : Nat) (cur nxt : List Mat) :
    (combineVars nv cur nxt).length = cur.length := by
  simp [combineVars]

lemma edlConcatAux_all_vars (nv : Nat) (hnv : 0 < nv) :
    ∀ (Ms : List (List Mat)) (acc : List Mat), acc.length = nv →
      (∀ m ∈ Ms, m.length = nv) →
      edlConcatAux nv (.vars acc) (Ms.map ExtractResult.vars) =
        some (.vars ((List.range nv).map (fun i =>
          acc.getD i [] ++ (Ms.map (fun m => m.getD i [])).flatten))) := by
  intro Ms
  induction Ms with
  | nil =>
    intro acc hacc _
    show some (ExtractResult.vars acc) = _
    simp only [List.map_nil, List.flatten_nil, List.append_nil]
    rw [← hacc, range_map_getD_self acc []]
  | cons m ms ih =>
    intro acc hacc hall
    have hm : m.length = nv := hall m (List.mem_cons_self m ms)
    have hmne : ExtractResult.vars m ≠ ExtractResult.vars [] := by
      intro h
      injection h with h2
      rw [h2] at hm
      simp at hm
      omega
    rw [List.map_cons]
    unfold edlConcatAux
    rw [if_neg hmne]
    show (if nv ≤ acc.length ∧ nv ≤ m.length then
        edlConcatAux nv (.vars (combineVars nv acc m))
          (ms.map ExtractResult.vars)
      else none) = _
    rw [if_pos ⟨le_of_eq hacc.symm, le_of_eq hm.symm⟩]
    rw [ih (combineVars nv acc m) (by rw [combineVars_length, hacc])
      (fun m2 hm2 => hall m2 (List.mem_cons_of_mem m hm2))]
    apply congrArg
    apply congrArg
    apply List.map_congr_left
    intro i hi
    have hi2 := List.mem_range.mp hi
    rw [combineVars_full nv acc m hacc, getD_range_map _ nv i [] hi2,
      List.map_cons, List.flatten_cons, List.append_assoc]

lemma edlVarList_all_vars (lats lons : List ℚ) (varNames : List String)
    (datearray : List (List MaybeTime)) (interpolate : Bool) :
    ∀ (files : List DatasetFile) (Ms : List (List Mat)),
      Ms.length = files.length →
      (∀ g ∈ files, g.times ≠ []) →
      (∀ j (hj : j < files.length),
        extract_dataset lats lons files[j] varNames
          (fileRestricted datearray files[j]) interpolate =
          .vars (Ms.getD j [])) →
      (∀ m ∈ Ms, m ≠ []) →
      edlVarList lats lons files varNames datearray interpolate =
        some (Ms.map ExtractResult.vars) := by
  intro files
  induction files with
  | nil =>
    intro Ms hlen _ _ _
    have h0 : Ms = [] := List.length_eq_zero.mp (by simpa using hlen)
    subst h0
    rfl
  | cons f fs ih =>
    intro Ms hlen ht hM hne
    cases Ms with
    | nil => simp at hlen
    | cons m0 ms =>
      have h0 : extract_dataset lats lons f varNames
          (fileRestricted datearray f) interpolate = .vars m0 := by
        have := hM 0 (by simp)
        simpa using this
      have htail := ih ms (by simpa using hlen)
        (fun g hg => ht g (List.mem_cons_of_mem f hg))
        (fun j hj => by
          have := hM (j + 1) (by simpa using hj)
          simpa using this)
        (fun m hm => hne m (List.mem_cons_of_mem m0 hm))
      unfold edlVarList
      rw [if_neg (ht f (List.mem_cons_self f fs)),
        if_neg (by rw [h0]; simp), htail, h0]
      show some (if ExtractResult.vars m0 ≠ ExtractResult.vars []
          then ExtractResult.vars m0 :: ms.map ExtractResult.vars
          else ms.map ExtractResult.vars) =
        some ((m0 :: ms).map ExtractResult.vars)
      rw [if_pos (by simp [hne m0 (List.mem_cons_self m0 ms)])]
      rfl

lemma specStitched_getD (nv : Nat) (Ms : List (List Mat)) (i : Nat)
    (hi : i < nv) :
    (specStitched nv Ms).getD i [] =
      (Ms.map (fun mj => mj.getD i [])).flatten := by
  unfold specStitched
  exact getD_range_map _ nv i [] hi

/-- Claim C1 (amended): provided every per-file window-restricted call of
`extract_dataset` returns a matrix list with one matrix per requested variable
(which requires that no station's valid-time count for a file is at least two
yet different from the request's row count — a count of one broadcasts; see
the straddle counterexample), `extract_dataset_list` returns, per variable,
the vertical concatenation in
file order of the per-file matrices, skipping files whose restricted request
yields an empty result, and the output row count is the sum of the
contributing files' row counts, ordered by file position. -/
theorem extract_dataset_list_concat_in_file_order (lats lons : List ℚ)
    (varNames : List String) (datearray : List (List MaybeTime))
    (interpolate : Bool) (files : List DatasetFile) (Ms : List (List Mat))
    (hlen : Ms.length = files.length) (hne : files ≠ []) (hnv : varNames ≠ [])
    (ht : ∀ g ∈ files, g.times ≠ [])
    (hM : ∀ j (hj : j < files.length),
      extract_dataset lats lons files[j] varNames
        (fileRestricted datearray files[j]) interpolate =
        .vars (Ms.getD j []))
    (hMlen : ∀ m ∈ Ms, m.length = varNames.length) :
    extract_dataset_list lats lons files varNames datearray interpolate =
      some (.vars (specStitched varNames.length Ms)) ∧
    ∀ i, i < varNames.length →
      ((specStitched varNames.length Ms).getD i []).length =
        (Ms.map (fun mj => (mj.getD i []).length)).sum := by
  have hnv0 : 0 < varNames.length := List.length_pos.mpr hnv
  have hMne : ∀ m ∈ Ms, m ≠ [] := by
    intro m hm h
    have h2 := hMlen m hm
    rw [h] at h2
    simp at h2
    omega
  constructor
  · have havl := edlVarList_all_vars lats lons varNames datearray interpolate
      files Ms hlen ht hM hMne
    unfold extract_dataset_list
    rw [havl]
    cases Ms with
    | nil =>
      exact absurd (List.length_eq_zero.mp hlen.symm) hne
    | cons m0 ms =>
      rw [List.map_cons]
      show edlConcatAux varNames.length (ExtractResult.vars m0)
          (ms.map ExtractResult.vars) =
        some (.vars (specStitched varNames.length (m0 :: ms)))
      rw [edlConcatAux_all_vars varNames.length hnv0 ms m0
        (hMlen m0 (List.mem_cons_self m0 ms))
        (fun m hm => hMlen m (List.mem_cons_of_mem m0 hm))]
      apply congrArg
      apply congrArg
      unfold specStitched
      apply List.map_congr_left
      intro i _
      rw [List.map_cons, List.flatten_cons]
  · intro i hi
    rw [specStitched_getD varNames.length Ms i hi, List.length_flatten,
      List.map_map]
    rfl

unseal Rat.add Rat.sub Rat.mul Rat.inv in
/-- Claim C1 counterexample: `fileA` and `fileB` have disjoint coverage whose
expanded windows meet exactly (tolerance-bridged), the variable is present in
both, and one station requests three timestamps straddling the boundary: the
first file's restricted request leaves the station one valid timestamp, whose
single value numpy broadcasts into the three-row column (a matrix is
produced), but the second file's restricted request leaves two valid
timestamps against the three-row column — a length-2 source cannot broadcast
into a length-3 slice, the assignment raises `ValueError`, `extract_dataset`
raises instead of producing a matrix, and `extract_dataset_list` dies
(modelled `none`) instead of returning any concatenation. -/
theorem extract_dataset_list_straddle_counterexample :
    fileWindowEnd fileA = fileWindowStart fileB ∧
    extract_dataset [(0 : ℚ)] [(0 : ℚ)] fileA ["V"]
      (fileRestricted [[some 60], [some 120], [some 180]] fileA) true =
      .vars [[[some 0], [some 0], [some 0]]] ∧
    extract_dataset [(0 : ℚ)] [(0 : ℚ)] fileB ["V"]
      (fileRestricted [[some 60], [some 120], [some 180]] fileB) true = .exn ∧
    extract_dataset_list [(0 : ℚ)] [(0 : ℚ)] [fileA, fileB] ["V"]
      [[some 60], [some 120], [some 180]] true = none := by
  exact ⟨by decide, by decide, by decide, by decide⟩

unseal Rat.add Rat.sub Rat.mul Rat.inv in
/-- Witness for the amended C1: a two-row request fully inside `fileA`'s
window; `fileB` contributes an all-NaN two-row block (not skipped), and the
stitched result stacks the two blocks in file order, 2 + 2 rows. -/
theorem extract_dataset_list_concat_in_file_order_witness :
    ([fileA, fileB] ≠ ([] : List DatasetFile)) ∧
    (["V"] ≠ ([] : List String)) ∧
    (extract_dataset_list [(0 : ℚ)] [(0 : ℚ)] [fileA, fileB] ["V"]
        [[some 0], [some 60]] true =
        some (.vars (specStitched (List.length ["V"])
          ([[[[some 0], [some 0]]], [[[none], [none]]]] : List (List Mat)))) ∧
      ∀ i, i < List.length ["V"] →
        ((specStitched (List.length ["V"])
            ([[[[some 0], [some 0]]], [[[none], [none]]]] :
              List (List Mat))).getD i []).length =
          (([[[[some 0], [some 0]]], [[[none], [none]]]] :
            List (List Mat)).map (fun mj => (mj.getD i []).length)).sum) :=
  ⟨List.cons_ne_nil _ _, by decide,
    extract_dataset_list_concat_in_file_order [(0 : ℚ)] [(0 : ℚ)] ["V"]
      [[some 0], [some 60]] true [fileA, fileB]
      [[[[some 0], [some 0]]], [[[none], [none]]]]
      (by decide) (List.cons_ne_nil _ _) (by decide) (by decide) (by decide)
      (by decide)⟩
